import Mathlib

/-!
Verification of the openGRADER MIDI macro orchestrator
(`src/src-tauri/src/lib.rs`) against its specification.

The Rust source is shallowly embedded: `u8`/`u32` values are modelled as
`Nat`, `i32` coordinates as `Int`, wall-clock `Instant`s as `Nat`
milliseconds, and the side effects of the `enigo` input-synthesis calls as
an explicit trace of `InputEvent`s.  Fallible code returns `Except String`.
Rust snake_case command names (`register_macro`, `cancel_macro`,
`get_macros`) are rendered in camelCase (`registerMacro`, `cancelMacro`,
`getMacros`); all other names follow the source.
-/

/-- `enum ActionType` from the source (note: the source has no KeyRelease
variant). -/
inductive ActionType
  | MouseMove
  | MouseClick
  | KeyPress
  | KeyCombination
  | MouseRelease
  | MouseDrag
  | Delay
deriving DecidableEq

/-- `struct ActionParams`: the optional parameter record of an action. -/
structure ActionParams where
  x : Option Int
  y : Option Int
  button : Option String
  key : Option String
  modifiers : Option (List String)
  keys : Option (List String)
  relative : Option Bool
  hold : Option Bool
  duration : Option Nat
deriving DecidableEq

/-- `impl Default for ActionParams`: every field `None`. -/
def ActionParams.default : ActionParams :=
  ⟨none, none, none, none, none, none, none, none, none⟩

/-- `struct MacroAction`: one action of a before/main/after sequence. -/
structure MacroAction where
  action_type : ActionType
  action_params : ActionParams
deriving DecidableEq

/-- `struct MacroConfig`: a registered MIDI macro definition. -/
structure MacroConfig where
  id : String
  name : String
  groupId : Option String
  midi_note : Nat
  midi_channel : Nat
  midi_value : Option Nat
  actions : List MacroAction
  before_actions : Option (List MacroAction)
  after_actions : Option (List MacroAction)
  timeout : Option Nat
deriving DecidableEq

/-- The matching logic of the MIDI callback (lib.rs lines 493-537): a config
triggers iff the channel matches and, for a ControlChange message
(`status & 0xF0 == 0xB0`), the CC number equals `data1` and the config's
`midi_value` is `Some` of `data2`.  NoteOn/NoteOff matching is computed into
`_is_note_message` but never consulted (the branch is commented out), and a
`None` `midi_value` falls into a branch that leaves `trigger_match` false. -/
def trigger_match (message_type_u8 channel data1 data2 : Nat) (mc : MacroConfig) : Bool :=
  let is_cc_message := message_type_u8 == 0xB0
  if mc.midi_channel == channel then
    if is_cc_message && (mc.midi_note == data1) then
      match mc.midi_value with
      | some expected_value => data2 == expected_value
      | none => false
    else
      false
  else
    false

/-- The configs for which the MIDI callback spawns one orchestrator task on a
3-byte message `[status, data1, data2]`: the callback iterates the registry
snapshot in order and spawns exactly one task per config with
`trigger_match` true (lib.rs lines 474-555). -/
def spawnedTasks (status data1 data2 : Nat) (registry : List MacroConfig) : List MacroConfig :=
  registry.filter (fun mc =>
    trigger_match (status &&& 0xF0) ((status &&& 0x0F) + 1) data1 data2 mc)

/-- Occurrence count of a config in a list (used to state "exactly one task
is spawned for it"). -/
def countOcc (mc : MacroConfig) : List MacroConfig → Nat
  | [] => 0
  | x :: rest => (if x = mc then 1 else 0) + countOcc mc rest

/-! ## The Action Executor (`execute_action_impl`, lib.rs lines 206-322)

The `enigo` calls are modelled as an explicit trace of `InputEvent`s; the
`std::thread::sleep` inside MouseDrag appears in the trace as a `sleep`
event.  `Key` and `MouseButton` mirror the `enigo` variants the source
uses. -/

/-- The `enigo::MouseButton` variants reachable from `string_to_mouse_button`. -/
inductive MouseButton
  | Left
  | Right
  | Middle
deriving DecidableEq

/-- The `enigo::Key` variants reachable from `string_to_key`. -/
inductive Key
  | Backspace
  | Tab
  | Return
  | Escape
  | Space
  | CapsLock
  | Shift
  | Control
  | Alt
  | Meta
  | Delete
  | Home
  | End
  | PageUp
  | PageDown
  | F1
  | F2
  | F3
  | F4
  | F5
  | F6
  | F7
  | F8
  | F9
  | F10
  | F11
  | F12
  | F13
  | F14
  | F15
  | F16
  | F17
  | F18
  | F19
  | F20
  | Layout (c : Char)
deriving DecidableEq

/-- Rust `str::to_lowercase`, modelled for its ASCII fragment (the key and
button vocabularies the source matches are all ASCII; `Char.toLower`
lower-cases exactly the ASCII letters). -/
def toLowercase (s : String) : String :=
  String.mk (s.data.map Char.toLower)

/-- `fn string_to_key` (lib.rs lines 135-194).  The final Rust arm
`s if s.len() == 1` accepts only a single ASCII byte; a single non-ASCII
char has byte length ≥ 2 and falls to `None` in Rust, as it does here via
the explicit ASCII test (`is_ascii` is `c as u32 <= 0x7F`). -/
def string_to_key (key : String) : Option Key :=
  match toLowercase key with
  | "backspace" => some .Backspace
  | "tab" => some .Tab
  | "enter" => some .Return
  | "return" => some .Return
  | "escape" => some .Escape
  | "esc" => some .Escape
  | "space" => some .Space
  | "capslock" => some .CapsLock
  | "shift" => some .Shift
  | "ctrl" => some .Control
  | "control" => some .Control
  | "alt" => some .Alt
  | "meta" => some .Meta
  | "command" => some .Meta
  | "super" => some .Meta
  | "windows" => some .Meta
  | "delete" => some .Delete
  | "del" => some .Delete
  | "home" => some .Home
  | "end" => some .End
  | "pageup" => some .PageUp
  | "pagedown" => some .PageDown
  | "leftarrow" => some (.Layout '←')
  | "rightarrow" => some (.Layout '→')
  | "uparrow" => some (.Layout '↑')
  | "downarrow" => some (.Layout '↓')
  | "f1" => some .F1
  | "f2" => some .F2
  | "f3" => some .F3
  | "f4" => some .F4
  | "f5" => some .F5
  | "f6" => some .F6
  | "f7" => some .F7
  | "f8" => some .F8
  | "f9" => some .F9
  | "f10" => some .F10
  | "f11" => some .F11
  | "f12" => some .F12
  | "f13" => some .F13
  | "f14" => some .F14
  | "f15" => some .F15
  | "f16" => some .F16
  | "f17" => some .F17
  | "f18" => some .F18
  | "f19" => some .F19
  | "f20" => some .F20
  | "arrowleft" => some (.Layout '←')
  | "arrowright" => some (.Layout '→')
  | "arrowup" => some (.Layout '↑')
  | "arrowdown" => some (.Layout '↓')
  | s =>
    match s.toList with
    | [c] => if c.toNat ≤ 0x7F then some (.Layout c) else none
    | _ => none

/-- `fn string_to_mouse_button` (lib.rs lines 196-204). -/
def string_to_mouse_button (button : String) : Option MouseButton :=
  match toLowercase button with
  | "left" => some .Left
  | "right" => some .Right
  | "middle" => some .Middle
  | _ => none

/-- One synthesized OS input effect (an `enigo` call), or a
`std::thread::sleep` inside MouseDrag. -/
inductive InputEvent
  | mouseMoveRel (x y : Int)
  | mouseMoveAbs (x y : Int)
  | mouseDown (b : MouseButton)
  | mouseUp (b : MouseButton)
  | mouseClick (b : MouseButton)
  | keyDown (k : Key)
  | keyUp (k : Key)
  | keyClick (k : Key)
  | sleep (ms : Nat)
deriving DecidableEq

/-- Models Rust `(a as f32 / n as f32).round() as i32` by exact rational
division rounded half away from zero.  (`f32` rounding of the two casts and
the quotient is not modelled; no theorem below constrains the value this
function returns, and at every concrete input used in a proof the `f32`
computation is exact.) -/
def roundDiv (a : Int) (n : Nat) : Int :=
  if 0 ≤ a then (2 * a + n) / (2 * n) else -((2 * (-a) + n) / (2 * n))

/-- The body of the MouseDrag `for i in 0..steps` loop (lib.rs lines
296-303), as a recursion on the number of remaining steps: each step emits
one relative move, and every step but the last is followed by a sleep when
`sleep_ms > 1` (the loop's `i < steps - 1` / `sleep_duration > 1ms`
guards). -/
def dragSteps (sdx sdy : Int) (sleep_ms : Nat) : Nat → List InputEvent
  | 0 => []
  | 1 => [.mouseMoveRel sdx sdy]
  | n + 2 =>
    [InputEvent.mouseMoveRel sdx sdy] ++
      (if 1 < sleep_ms then [InputEvent.sleep sleep_ms] else []) ++
      dragSteps sdx sdy sleep_ms (n + 1)

/-- The key-parsing loop of the KeyCombination arm (lib.rs lines 256-261):
`?` returns the first parse failure. -/
def parseKeys : List String → Except String (List Key)
  | [] => .ok []
  | k :: rest =>
    match string_to_key k with
    | none => .error ("Invalid key in combination: " ++ k)
    | some kk =>
      match parseKeys rest with
      | .ok ks => .ok (kk :: ks)
      | .error e => .error e

/-- `fn execute_action_impl` (lib.rs lines 213-322): the one-step action
executor.  Returns the trace of `enigo` calls it performs, or the error
string the Rust function returns. -/
def execute_action_impl (action_type : ActionType) (params : ActionParams) :
    Except String (List InputEvent) :=
  match action_type with
  | .MouseMove =>
    match params.x with
    | none => .error "Missing x parameter for MouseMove"
    | some x =>
      match params.y with
      | none => .error "Missing y parameter for MouseMove"
      | some y =>
        let relative := params.relative.getD false
        if relative then .ok [.mouseMoveRel x y] else .ok [.mouseMoveAbs x y]
  | .MouseClick =>
    match params.button with
    | none => .error "Missing button parameter for MouseClick"
    | some button_str =>
      match string_to_mouse_button button_str with
      | none => .error ("Invalid mouse button: " ++ button_str)
      | some button =>
        if params.hold == some true then .ok [.mouseDown button]
        else .ok [.mouseClick button]
  | .KeyPress =>
    match params.key with
    | none => .error "Missing key parameter for KeyPress"
    | some key_str =>
      match string_to_key key_str with
      | none => .error ("Invalid key: " ++ key_str)
      | some key => .ok [.keyClick key]
  | .KeyCombination =>
    match params.keys with
    | none => .error "Missing keys parameter for KeyCombination"
    | some keys_vec =>
      match parseKeys keys_vec with
      | .error e => .error e
      | .ok enigo_keys =>
        .ok (enigo_keys.map InputEvent.keyDown ++
             enigo_keys.reverse.map InputEvent.keyUp)
  | .MouseRelease =>
    match params.button with
    | none => .error "Missing button parameter for MouseRelease"
    | some button_str =>
      match string_to_mouse_button button_str with
      | none => .error ("Invalid mouse button: " ++ button_str)
      | some button => .ok [.mouseUp button]
  | .MouseDrag =>
    match params.button with
    | none => .error "Missing button parameter for MouseDrag"
    | some button_str =>
      match string_to_mouse_button button_str with
      | none => .error ("Invalid mouse button for MouseDrag: " ++ button_str)
      | some button =>
        match params.x with
        | none => .error "Missing dx (x) parameter for MouseDrag"
        | some dx =>
          match params.y with
          | none => .error "Missing dy (y) parameter for MouseDrag"
          | some dy =>
            let duration_ms := params.duration.getD 0
            if 0 < duration_ms then
              let steps := max 20 (duration_ms / 10)
              let step_dx := roundDiv dx steps
              let step_dy := roundDiv dy steps
              let sleep_ms := duration_ms / steps
              .ok ([InputEvent.mouseDown button] ++
                   dragSteps step_dx step_dy sleep_ms steps ++
                   [InputEvent.mouseUp button])
            else
              .ok [.mouseDown button, .mouseMoveRel dx dy, .mouseUp button]
  | .Delay =>
    .error "Delay action type should be handled by the calling async loop"

/-- Example CC config: channel 6, CC number 10, expected value 100. -/
def ccConfigEx : MacroConfig :=
  { id := "c1", name := "cc", groupId := none, midi_note := 10, midi_channel := 6,
    midi_value := some 100,
    actions := [{ action_type := .KeyPress, action_params := { ActionParams.default with key := some "x" } }],
    before_actions := none, after_actions := none, timeout := none }

/-- Example Note config: channel 1, note 10, any velocity (midi_value unset). -/
def noteConfigEx : MacroConfig :=
  { id := "n1", name := "note", groupId := none, midi_note := 10, midi_channel := 1,
    midi_value := none,
    actions := [{ action_type := .KeyPress, action_params := { ActionParams.default with key := some "x" } }],
    before_actions := none, after_actions := none, timeout := none }

/-- Is an event a relative mouse move (a drag interpolation step)? -/
def isMoveRel : InputEvent → Bool
  | .mouseMoveRel _ _ => true
  | _ => false

/-- Is an event a `std::thread::sleep` pause? -/
def isSleep : InputEvent → Bool
  | .sleep _ => true
  | _ => false

/-- MouseDrag parameters: displacement (100, 0), button left, duration 30 ms. -/
def dragParamsEx : ActionParams :=
  { ActionParams.default with
    x := some 100, y := some 0, button := some "left", duration := some 30 }

/-- The MouseDrag parameter record with displacement, button and duration
set (the fields the MouseDrag arm reads). -/
def dragParams (dx dy : Int) (button_str : String) (dur : Nat) : ActionParams :=
  { ActionParams.default with
      x := some dx,
      y := some dy,
      button := some button_str,
      duration := some dur }

/-! ## The orchestrator state (`AppState`, lib.rs lines 10-47)

`Instant`s are `Nat` milliseconds.  A tokio task's `AbortHandle` is
modelled by a `Nat` task id plus the state's `aborted` list: calling
`.abort()` appends the task's id to `aborted`.  The `HashMap`s are
association lists with unique keys (`HashMap` iteration order is
determinized to insertion order; no claim depends on it). -/

/-- `struct ActiveMacro`: the pending after-actions task for a group key. -/
structure ActiveMacro where
  taskId : Nat
  last_triggered : Nat
deriving DecidableEq

/-- `struct BeforeActionState`: when before-actions last ran for a group key
and for how long they are suppressed. -/
structure BeforeActionState where
  last_executed : Nat
  cooldown : Nat
deriving DecidableEq

/-- The shared `AppState` (registry, active timers, before states), plus the
`aborted` log of task ids whose `AbortHandle.abort()` was called and a
`nextTaskId` counter supplying fresh task ids to `tokio::spawn`. -/
structure OrchState where
  registered_macros : List MacroConfig
  active_macros : List (String × ActiveMacro)
  before_action_states : List (String × BeforeActionState)
  aborted : List Nat
  nextTaskId : Nat
deriving DecidableEq

/-- `HashMap::get` on the association-list model. -/
def lookupA {α : Type} : List (String × α) → String → Option α
  | [], _ => none
  | (k, v) :: rest, key => if k = key then some v else lookupA rest key

/-- `HashMap::remove` on the association-list model. -/
def eraseA {α : Type} : List (String × α) → String → List (String × α)
  | [], _ => []
  | (k, v) :: rest, key =>
    if k = key then eraseA rest key else (k, v) :: eraseA rest key

/-- `HashMap::insert` on the association-list model (replaces any entry
with the same key). -/
def insertA {α : Type} (l : List (String × α)) (key : String) (v : α) :
    List (String × α) :=
  eraseA l key ++ [(key, v)]

/-- The recurring source idiom
`if let Some(am) = active_macros.get(&key) { am.abort_handle.abort(); active_macros.remove(&key); }`:
abort the pending task under `key`, if any, and drop its entry. -/
def abortRemove (key : String) (s : OrchState) : OrchState :=
  match lookupA s.active_macros key with
  | some am =>
    { s with aborted := s.aborted ++ [am.taskId],
             active_macros := eraseA s.active_macros key }
  | none => s

/-- `register_macro` (lib.rs lines 360-384): abort any pending
after-actions task stored under `config.id`, then replace-or-append the
registry entry with that id. -/
def registerMacro (config : MacroConfig) (s : OrchState) : OrchState :=
  let s1 := abortRemove config.id s
  let macroList := s1.registered_macros
  let macroList' :=
    if macroList.any (fun m => m.id == config.id) then
      macroList.filter (fun m => m.id != config.id)
    else
      macroList
  { s1 with registered_macros := macroList' ++ [config] }

/-- `get_macros` (lib.rs lines 386-391): a clone of the registry. -/
def getMacros (s : OrchState) : List MacroConfig :=
  s.registered_macros

/-- `cancel_macro` (lib.rs lines 393-421): drop the id from the registry,
abort any pending after-actions task stored under the id, drop the
before-action state stored under the id.  The command performs no `enigo`
call, so its input-event trace is empty. -/
def cancelMacro (id : String) (s : OrchState) : OrchState × List InputEvent :=
  let s1 := { s with
    registered_macros := s.registered_macros.filter (fun m => m.id != id) }
  let s2 := abortRemove id s1
  let s3 := { s2 with before_action_states := eraseA s2.before_action_states id }
  (s3, [])

/-- The sequences of `register_macro` / `cancel_macro` commands claim C6
quantifies over. -/
inductive Cmd
  | reg (config : MacroConfig)
  | cancel (id : String)

/-- Run one command against the state. -/
def applyCmd (s : OrchState) : Cmd → OrchState
  | .reg config => registerMacro config s
  | .cancel id => (cancelMacro id s).1

/-- Run a command sequence left to right. -/
def applyCmds (cmds : List Cmd) (s : OrchState) : OrchState :=
  cmds.foldl applyCmd s

/-- The process-startup state (`APP_STATE` initialization, lib.rs lines
38-47): everything empty. -/
def initialState : OrchState :=
  { registered_macros := [], active_macros := [], before_action_states := [],
    aborted := [], nextTaskId := 0 }

/-- Whether `b` is depressed at the OS after the event trace `evs` (the
last press/release of `b` wins). -/
def buttonHeldAfter (b : MouseButton) (evs : List InputEvent) : Bool :=
  evs.foldl
    (fun h e =>
      match e with
      | .mouseDown b' => if b' = b then true else h
      | .mouseUp b' => if b' = b then false else h
      | _ => h)
    false

/-! ## The trigger orchestrator task (lib.rs lines 555-860)

The spawned task is modelled as a pure function from the macro config, the
trigger instant and the state to a `TriggerResult`.  Action dispatch is
instantaneous except for the model clock advances caused by `Delay`
actions (handled inline by the before/main loops) and by the
`std::thread::sleep`s a dispatched MouseDrag performs. -/

/-- Total sleeping time inside a dispatched action's event trace. -/
def eventsElapsed : List InputEvent → Nat
  | [] => 0
  | .sleep ms :: rest => ms + eventsElapsed rest
  | _ :: rest => eventsElapsed rest

/-- The before/main phase loop (lib.rs lines 718-736 and 751-771): a
`Delay` action suspends the task for its `duration` (no dispatch; a missing
duration only logs), every other action is dispatched to the executor with
errors logged and ignored.  Returns the dispatched events and the advanced
clock. -/
def runActions : List MacroAction → Nat → List InputEvent × Nat
  | [], t => ([], t)
  | a :: rest, t =>
    match a.action_type with
    | .Delay =>
      let t' :=
        match a.action_params.duration with
        | some d => t + d
        | none => t
      runActions rest t'
    | _ =>
      match execute_action_impl a.action_type a.action_params with
      | .ok es =>
        let r := runActions rest (t + eventsElapsed es)
        (es ++ r.1, r.2)
      | .error _ => runActions rest t

/-- The forced/timed after-actions loop (lib.rs lines 619-627 and 802-811):
every action, `Delay` included, is dispatched directly to the executor
(a dispatched `Delay` just errors and is logged), errors ignored. -/
def runForcedActions : List MacroAction → List InputEvent
  | [] => []
  | a :: rest =>
    (match execute_action_impl a.action_type a.action_params with
     | .ok es => es
     | .error _ => []) ++ runForcedActions rest

/-- The group key of a config: `groupId` if set, else `id` (lib.rs lines
560-567, recomputed identically at lines 689-698 and 779-785). -/
def activeMacroKey (mc : MacroConfig) : String :=
  match mc.groupId with
  | some group_id => group_id
  | none => mc.id

/-- The preemption scan (lib.rs lines 569-612): walk `active_macros`; the
current group's own key is only scheduled for removal; any other key whose
registry config (found by `m.id == key || m.groupId == Some(key)`) has
non-empty after-actions is scheduled for forced execution and removal.
Returns (macros_to_execute, keys_to_remove) in iteration order. -/
def preemptScan (active_macro_key : String) (reg : List MacroConfig) :
    List (String × ActiveMacro) → List (String × MacroConfig) × List String
  | [] => ([], [])
  | (k, _) :: rest =>
    let r := preemptScan active_macro_key reg rest
    if k = active_macro_key then
      (r.1, k :: r.2)
    else
      match reg.find? (fun m => m.id == k || m.groupId == some k) with
      | some mc =>
        match mc.after_actions with
        | some l => if !l.isEmpty then ((k, mc) :: r.1, k :: r.2) else r
        | none => r
      | none => r

/-- The forced execution of the preempted groups' after-actions (lib.rs
lines 614-635): run each preempted config's after-actions through the
direct-dispatch loop and drop its before-action state. -/
def runPreemptedAfters :
    List (String × MacroConfig) → OrchState → Nat → OrchState × List InputEvent × Nat
  | [], s, t => (s, [], t)
  | (k, mc) :: rest, s, t =>
    let evs := runForcedActions (mc.after_actions.getD [])
    let s' := { s with before_action_states := eraseA s.before_action_states k }
    let r := runPreemptedAfters rest s' (t + eventsElapsed evs)
    (r.1, evs ++ r.2.1, r.2.2)

/-- `BEFORE_ACTION_COOLDOWN_MS` (lib.rs line 687). -/
def BEFORE_ACTION_COOLDOWN_MS : Nat := 5000

/-- What one orchestrator task run produces: the final shared state, the
event traces of the preemption / before / main phases, the model clock at
which the before/main phases begin, and the clock when the main phase
ends (the instant an after-timer, if any, is armed). -/
structure TriggerResult where
  state : OrchState
  preemptEvents : List InputEvent
  beforeStart : Nat
  beforeEvents : List InputEvent
  mainEvents : List InputEvent
  endTime : Nat
deriving DecidableEq

/-- The preemption step of the per-trigger task (lib.rs lines 569-635):
scan `active_macros`, abort and remove every scanned key, then run the
preempted groups' after-actions through the direct-dispatch loop. -/
def preemptPhase (active_macro_key : String) (now : Nat) (s : OrchState) :
    OrchState × List InputEvent × Nat :=
  let scan := preemptScan active_macro_key s.registered_macros s.active_macros
  let s1 := scan.2.foldl (fun st k => abortRemove k st) s
  runPreemptedAfters scan.1 s1 now

/-- The defensive before-state protection branch (lib.rs lines 660-678): a
lingering before-action state for the group key is re-inserted with
`last_executed = Instant::now()` and the doubled cooldown. -/
def protectLingering (active_macro_key : String) (t1 : Nat) (s : OrchState) : OrchState :=
  if (lookupA s.before_action_states active_macro_key).isSome then
    let protectedState : BeforeActionState :=
      { last_executed := t1, cooldown := BEFORE_ACTION_COOLDOWN_MS * 2 }
    { s with before_action_states :=
        insertA s.before_action_states active_macro_key protectedState }
  else s

/-- The cooldown check deciding `should_execute_before` (lib.rs lines
683-712). -/
def shouldExecuteBefore (state_key : String) (t1 : Nat) (s : OrchState) : Bool :=
  match lookupA s.before_action_states state_key with
  | some st => if t1 - st.last_executed < st.cooldown then false else true
  | none => true

/-- The before-actions phase (lib.rs lines 714-745): when allowed and
non-empty, run the before-actions through the Delay-aware loop and record
the cooldown state. -/
def beforePhase (mc : MacroConfig) (state_key : String) (t1 : Nat) (s : OrchState) :
    OrchState × List InputEvent × Nat :=
  if shouldExecuteBefore state_key t1 s && mc.before_actions.isSome
      && !(mc.before_actions.getD []).isEmpty then
    let br := runActions (mc.before_actions.getD []) t1
    let doneState : BeforeActionState :=
      { last_executed := br.2, cooldown := BEFORE_ACTION_COOLDOWN_MS }
    ({ s with before_action_states := insertA s.before_action_states state_key doneState },
     br.1, br.2)
  else (s, [], t1)

/-- The after-timer arming step (lib.rs lines 773-858): when after-actions
exist, are non-empty and a timeout is set, spawn the timer task (consuming
a fresh task id) and, under the lock, either detect the race (an entry is
already stored under the key: abort the new task) or store its handle as
the new active entry. -/
def armPhase (mc : MacroConfig) (active_macro_key : String) (t3 : Nat) (s : OrchState) :
    OrchState :=
  match mc.after_actions with
  | some l =>
    if !l.isEmpty && mc.timeout.isSome then
      if (lookupA s.active_macros active_macro_key).isSome then
        { s with aborted := s.aborted ++ [s.nextTaskId],
                 nextTaskId := s.nextTaskId + 1 }
      else
        let armedEntry : ActiveMacro := { taskId := s.nextTaskId, last_triggered := t3 }
        let newActive := insertA s.active_macros active_macro_key armedEntry
        { s with active_macros := newActive, nextTaskId := s.nextTaskId + 1 }
    else s
  | none => s

/-- The body of the per-trigger orchestrator task (lib.rs lines 555-860),
in source order: preemption (lines 569-635); defensive abort-and-removal of
this group's own active entry (lines 637-658); the defensive before-state
protection (lines 660-678); the before-actions phase guarded by the
cooldown check (lines 683-745); the main-actions loop (lines 747-771); the
after-timer arming (lines 773-858). -/
def triggerTask (mc : MacroConfig) (now : Nat) (s : OrchState) : TriggerResult :=
  let active_macro_key := activeMacroKey mc
  let pre := preemptPhase active_macro_key now s
  let t1 := pre.2.2
  let s3 := abortRemove active_macro_key pre.1
  let s4 := protectLingering active_macro_key t1 s3
  let state_key := activeMacroKey mc
  let bres := beforePhase mc state_key t1 s4
  let mres := runActions mc.actions bres.2.2
  let s6 := armPhase mc active_macro_key mres.2 bres.1
  { state := s6, preemptEvents := pre.2.1, beforeStart := t1,
    beforeEvents := bres.2.1, mainEvents := mres.1, endTime := mres.2 }

/-- What the armed after-actions timer task produces when it fires. -/
structure FireResult where
  state : OrchState
  events : List InputEvent
  endTime : Nat
deriving DecidableEq

/-- The body of the spawned after-actions timer task (lib.rs lines
791-834): sleep `timeout_ms`, dispatch the after-actions directly, then —
only if an active entry is still registered under the task's key — remove
that entry and the before-action state under the same key. -/
def afterTimerFire (task_key : String) (after_actions : List MacroAction)
    (timeout_ms arm_time : Nat) (s : OrchState) : FireResult :=
  let evs := runForcedActions after_actions
  let t' := arm_time + timeout_ms + eventsElapsed evs
  if (lookupA s.active_macros task_key).isSome then
    { state :=
        { s with active_macros := eraseA s.active_macros task_key,
                 before_action_states := eraseA s.before_action_states task_key },
      events := evs, endTime := t' }
  else
    { state := s, events := evs, endTime := t' }


/-- The source's arming condition (lib.rs lines 774-775): after-actions
exist, are non-empty, and a timeout is set. -/
def armingCondition (mc : MacroConfig) : Bool :=
  match mc.after_actions with
  | some l => !l.isEmpty && mc.timeout.isSome
  | none => false

/-- No two registry entries share an id. -/
def idsNodup (l : List MacroConfig) : Prop :=
  (l.map (fun m => m.id)).Nodup

/-- A one-action KeyPress of a named key. -/
def keyAction (k : String) : MacroAction :=
  { action_type := .KeyPress,
    action_params := { ActionParams.default with key := some k } }

/-- A Delay action of the given duration. -/
def delayAction (d : Nat) : MacroAction :=
  { action_type := .Delay,
    action_params := { ActionParams.default with duration := some d } }

/-- Group-g config: main "x", after "a", timeout 500 ms. -/
def cfgG : MacroConfig :=
  { id := "m1", name := "left encoder", groupId := some "g", midi_note := 1,
    midi_channel := 1, midi_value := some 1, actions := [keyAction "x"],
    before_actions := none, after_actions := some [keyAction "a"],
    timeout := some 500 }

/-- Group-g2 config: before "b", main "y", after "c", timeout 500 ms. -/
def cfgG2 : MacroConfig :=
  { id := "m2", name := "right encoder", groupId := some "g2", midi_note := 2,
    midi_channel := 1, midi_value := some 1, actions := [keyAction "y"],
    before_actions := some [keyAction "b"], after_actions := some [keyAction "c"],
    timeout := some 500 }

/-- Registry holding the two grouped configs, nothing active. -/
def twoGroupState : OrchState :=
  { registered_macros := [cfgG, cfgG2], active_macros := [],
    before_action_states := [], aborted := [], nextTaskId := 0 }

/-- A config with a timeout but no after-actions. -/
def cfgTimeoutNoAfter : MacroConfig :=
  { id := "t1", name := "t", groupId := none, midi_note := 3, midi_channel := 1,
    midi_value := some 1, actions := [keyAction "x"], before_actions := none,
    after_actions := none, timeout := some 500 }

/-- Parameters holding the left mouse button down (MouseClick with
`hold = true` presses without releasing). -/
def holdLeftParams : ActionParams :=
  { ActionParams.default with button := some "left", hold := some true }

/-- A macro whose main action holds the left button down. -/
def cfgHold : MacroConfig :=
  { id := "h1", name := "hold", groupId := none, midi_note := 4, midi_channel := 1,
    midi_value := some 1,
    actions := [{ action_type := .MouseClick, action_params := holdLeftParams }],
    before_actions := none, after_actions := none, timeout := none }

/-- A state in which cfgHold is registered and its id has a pending timer
entry and a before state (everything cancel_macro cleans up). -/
def cancelStateEx : OrchState :=
  { registered_macros := [cfgHold],
    active_macros := [("h1", { taskId := 7, last_triggered := 0 })],
    before_action_states := [("h1", { last_executed := 0, cooldown := 5000 })],
    aborted := [], nextTaskId := 8 }

/-- A state with a lingering before-action state for group g2. -/
def lingerStateEx : OrchState :=
  { registered_macros := [cfgG2], active_macros := [],
    before_action_states := [("g2", { last_executed := 0, cooldown := 5000 })],
    aborted := [], nextTaskId := 0 }

/-- A state with a pending after-actions timer entry stored under "g". -/
def armedStateEx : OrchState :=
  { registered_macros := [cfgG],
    active_macros := [("g", { taskId := 0, last_triggered := 0 })],
    before_action_states := [], aborted := [], nextTaskId := 1 }

/-- A grouped config whose id differs from its group key. -/
def cfgGroupedReg : MacroConfig :=
  { id := "m9", name := "regrouped", groupId := some "g", midi_note := 5,
    midi_channel := 1, midi_value := some 1, actions := [keyAction "z"],
    before_actions := none, after_actions := some [keyAction "a"],
    timeout := some 500 }

/-! ## Theorems -/

theorem countOcc_filter (p : MacroConfig → Bool) (l : List MacroConfig) (a : MacroConfig) :
    countOcc a (l.filter p) = if p a then countOcc a l else 0 := by
  induction l with
  | nil => cases hp : p a <;> simp [countOcc, hp]
  | cons x rest ih =>
    by_cases hxa : x = a
    · subst hxa
      cases hp : p x <;> simp [List.filter_cons, hp, countOcc, ih]
    · cases hp : p x <;> cases hpa : p a <;>
        simp [List.filter_cons, hp, hpa, countOcc, hxa, ih]

theorem trigger_match_cc_iff (channel data1 data2 : Nat) (mc : MacroConfig) :
    trigger_match 0xB0 channel data1 data2 mc = true ↔
      (mc.midi_channel = channel ∧ mc.midi_note = data1 ∧ mc.midi_value = some data2) := by
  cases hv : mc.midi_value with
  | none => simp [trigger_match, hv]
  | some v =>
    simp only [trigger_match, hv]
    constructor
    · intro h
      split at h
      · split at h
        · rename_i hch hcc
          simp only [Bool.and_eq_true, beq_iff_eq] at hch hcc h
          exact ⟨hch, hcc.2, by rw [h.symm]⟩
        · exact absurd h (by simp)
      · exact absurd h (by simp)
    · rintro ⟨hch, hn, hv2⟩
      injection hv2 with hv2
      simp [hch, hn, hv2]

theorem trigger_match_non_cc (mt channel data1 data2 : Nat) (mc : MacroConfig)
    (h : mt ≠ 0xB0) : trigger_match mt channel data1 data2 mc = false := by
  have : (mt == 0xB0) = false := by simpa using h
  simp only [trigger_match, this, Bool.false_and]
  split <;> simp

/-- Claim C1: for a 3-byte ControlChange message (status top nibble `0xB0`)
and a registered config whose `midi_channel` equals the message channel,
exactly one orchestrator task is spawned for it iff its `midi_note` equals
`data1` and its `midi_value` is set and equals `data2`; a config with unset
`midi_value` never matches a ControlChange message. -/
theorem cc_match_spawns_iff (status data1 data2 : Nat) (registry : List MacroConfig)
    (mc : MacroConfig)
    (hcc : status &&& 0xF0 = 0xB0)
    (hch : mc.midi_channel = (status &&& 0x0F) + 1)
    (honce : countOcc mc registry = 1) :
    (countOcc mc (spawnedTasks status data1 data2 registry) = 1 ↔
      mc.midi_note = data1 ∧ mc.midi_value = some data2)
    ∧ (mc.midi_value = none →
        countOcc mc (spawnedTasks status data1 data2 registry) = 0) := by
  have hcount := countOcc_filter
    (fun m => trigger_match (status &&& 0xF0) ((status &&& 0x0F) + 1) data1 data2 m)
    registry mc
  rw [spawnedTasks, hcc] at *
  constructor
  · constructor
    · intro h1
      by_cases hm : trigger_match 0xB0 ((status &&& 0x0F) + 1) data1 data2 mc = true
      · have := (trigger_match_cc_iff _ _ _ _).mp hm
        exact ⟨this.2.1, this.2.2⟩
      · simp only [hm] at hcount
        simp at hcount
        rw [hcount] at h1
        exact absurd h1 one_ne_zero.symm
    · rintro ⟨hn, hv⟩
      have hm : trigger_match 0xB0 ((status &&& 0x0F) + 1) data1 data2 mc = true :=
        (trigger_match_cc_iff _ _ _ _).mpr ⟨hch, hn, hv⟩
      simp only [hm, if_true] at hcount
      rw [hcount, honce]
  · intro hv
    have hm : trigger_match 0xB0 ((status &&& 0x0F) + 1) data1 data2 mc = false := by
      cases hmb : trigger_match 0xB0 ((status &&& 0x0F) + 1) data1 data2 mc
      · rfl
      · have := (trigger_match_cc_iff _ _ _ _).mp hmb
        rw [hv] at this
        exact absurd this.2.2 (by simp)
    simp only [hm] at hcount
    simpa using hcount

theorem cc_match_spawns_iff_witness :
    (countOcc ccConfigEx (spawnedTasks 0xB5 10 100 [ccConfigEx]) = 1 ↔
      ccConfigEx.midi_note = 10 ∧ ccConfigEx.midi_value = some 100)
    ∧ (ccConfigEx.midi_value = none →
        countOcc ccConfigEx (spawnedTasks 0xB5 10 100 [ccConfigEx]) = 0) :=
  cc_match_spawns_iff 0xB5 10 100 [ccConfigEx] ccConfigEx (by decide) (by decide) (by decide)

/-- Claim C2 counterexample: a NoteOn message (status `0x90`, channel 1, note
10, velocity 64) and a registered config with matching channel, matching
`midi_note`, and unset `midi_value`: the claim says the config matches and a
task is spawned, but the callback spawns no task at all — NoteOn/NoteOff
matching is computed into an unused variable and the note branch is
commented out in the source. -/
theorem noteon_match_claim_false :
    noteConfigEx.midi_channel = (0x90 &&& 0x0F) + 1 ∧ noteConfigEx.midi_note = 10 ∧
    noteConfigEx.midi_value = none ∧ spawnedTasks 0x90 10 64 [noteConfigEx] = [] := by
  refine ⟨rfl, rfl, rfl, ?_⟩
  decide

/-- Claim C2 (amended): for every incoming 3-byte MIDI message whose status
top nibble is `0x90` (NoteOn) or `0x80` (NoteOff), no registered config ever
matches and no orchestrator task is spawned: the source computes
`_is_note_message` but the note-matching branch is commented out. -/
theorem note_message_spawns_nothing (status data1 data2 : Nat) (registry : List MacroConfig)
    (h : status &&& 0xF0 = 0x90 ∨ status &&& 0xF0 = 0x80) :
    spawnedTasks status data1 data2 registry = [] := by
  have hne : (status &&& 0xF0) ≠ 0xB0 := by
    rcases h with h | h <;> rw [h] <;> decide
  unfold spawnedTasks
  rw [List.filter_eq_nil_iff]
  intro mc _
  simp [trigger_match_non_cc _ _ _ _ _ hne]

theorem note_message_spawns_nothing_witness :
    spawnedTasks 0x90 10 64 [noteConfigEx, ccConfigEx] = [] :=
  note_message_spawns_nothing 0x90 10 64 [noteConfigEx, ccConfigEx] (Or.inl (by decide))


theorem dragSteps_filter_moves (sdx sdy : Int) (s : Nat) :
    ∀ n, ((dragSteps sdx sdy s n).filter isMoveRel).length = n := by
  intro n
  induction n using Nat.strong_induction_on with
  | _ n ih =>
    match n with
    | 0 => simp [dragSteps]
    | 1 => simp [dragSteps, isMoveRel]
    | n + 2 =>
      have hrec := ih (n + 1) (by omega)
      by_cases hs : 1 < s <;>
        simp [dragSteps, hs, isMoveRel, isSleep, hrec, List.filter_append]

theorem dragSteps_filter_sleeps (sdx sdy : Int) (s : Nat) :
    ∀ n, ((dragSteps sdx sdy s n).filter isSleep).length =
      (if 1 < s then n - 1 else 0) := by
  intro n
  induction n using Nat.strong_induction_on with
  | _ n ih =>
    match n with
    | 0 => by_cases hs : 1 < s <;> simp [dragSteps, hs]
    | 1 => by_cases hs : 1 < s <;> simp [dragSteps, hs, isSleep, isMoveRel]
    | n + 2 =>
      have hrec := ih (n + 1) (by omega)
      by_cases hs : 1 < s <;>
        simp [dragSteps, hs, isMoveRel, isSleep, hrec, List.filter_append]

/-- Claim C8 (amended): for every MouseDrag action with `duration > 0` the
executor presses the button, performs exactly `max(20, duration/10)`
relative-move steps of the rounded per-step delta, with a
`duration/steps`-ms pause between consecutive steps exactly when
`duration/steps > 1` ms (no pause otherwise), then releases the button; for
`duration = 0` it emits a single relative move between the press and the
release. -/
theorem mouse_drag_trace (button_str : String) (button : MouseButton) (dx dy : Int)
    (dur : Nat) (hb : string_to_mouse_button button_str = some button) :
    (0 < dur →
      execute_action_impl .MouseDrag (dragParams dx dy button_str dur) =
        .ok ([InputEvent.mouseDown button] ++
             dragSteps (roundDiv dx (max 20 (dur / 10))) (roundDiv dy (max 20 (dur / 10)))
               (dur / max 20 (dur / 10)) (max 20 (dur / 10)) ++
             [InputEvent.mouseUp button]) ∧
      ((dragSteps (roundDiv dx (max 20 (dur / 10))) (roundDiv dy (max 20 (dur / 10)))
          (dur / max 20 (dur / 10)) (max 20 (dur / 10))).filter isMoveRel).length =
        max 20 (dur / 10) ∧
      ((dragSteps (roundDiv dx (max 20 (dur / 10))) (roundDiv dy (max 20 (dur / 10)))
          (dur / max 20 (dur / 10)) (max 20 (dur / 10))).filter isSleep).length =
        (if 1 < dur / max 20 (dur / 10) then max 20 (dur / 10) - 1 else 0))
    ∧ (dur = 0 →
      execute_action_impl .MouseDrag (dragParams dx dy button_str dur) =
        .ok [.mouseDown button, .mouseMoveRel dx dy, .mouseUp button]) := by
  constructor
  · intro hdur
    refine ⟨?_, dragSteps_filter_moves _ _ _ _, dragSteps_filter_sleeps _ _ _ _⟩
    simp only [execute_action_impl, dragParams, ActionParams.default, hb,
      Option.getD_some, hdur, if_pos]
  · intro hdur
    subst hdur
    simp only [execute_action_impl, dragParams, ActionParams.default, hb, Option.getD_some]
    norm_num

theorem mouse_drag_trace_witness :
    ((0 : Nat) < 400 →
      execute_action_impl .MouseDrag (dragParams 200 0 "left" 400) =
        .ok ([InputEvent.mouseDown .Left] ++
             dragSteps (roundDiv 200 (max 20 (400 / 10))) (roundDiv 0 (max 20 (400 / 10)))
               (400 / max 20 (400 / 10)) (max 20 (400 / 10)) ++
             [InputEvent.mouseUp .Left]) ∧
      ((dragSteps (roundDiv 200 (max 20 (400 / 10))) (roundDiv 0 (max 20 (400 / 10)))
          (400 / max 20 (400 / 10)) (max 20 (400 / 10))).filter isMoveRel).length =
        max 20 (400 / 10) ∧
      ((dragSteps (roundDiv 200 (max 20 (400 / 10))) (roundDiv 0 (max 20 (400 / 10)))
          (400 / max 20 (400 / 10)) (max 20 (400 / 10))).filter isSleep).length =
        (if 1 < 400 / max 20 (400 / 10) then max 20 (400 / 10) - 1 else 0))
    ∧ ((400 : Nat) = 0 →
      execute_action_impl .MouseDrag (dragParams 200 0 "left" 400) =
        .ok [.mouseDown .Left, .mouseMoveRel 200 0, .mouseUp .Left]) :=
  mouse_drag_trace "left" .Left 200 0 400 (by decide)

/-- Claim C8 counterexample: MouseDrag with displacement (100, 0), button
"left" and duration 30 ms: duration > 0 and there are 20 interpolation steps
(so 19 gaps between consecutive steps), yet the trace contains no pause at
all — `duration/steps = 30/20 = 1` ms fails the source's
`sleep_duration > 1ms` guard, refuting "with a pause between consecutive
steps" as stated. -/
theorem mouse_drag_pause_claim_false :
    (0 < (30 : Nat)) ∧ max 20 (30 / 10) = 20 ∧
    execute_action_impl .MouseDrag dragParamsEx =
      .ok ([InputEvent.mouseDown .Left] ++ dragSteps 5 0 1 20 ++ [InputEvent.mouseUp .Left]) ∧
    ([InputEvent.mouseDown .Left] ++ dragSteps 5 0 1 20 ++
        [InputEvent.mouseUp .Left]).filter isSleep = [] ∧
    ((dragSteps 5 0 1 20).filter isMoveRel).length = 20 := by
  refine ⟨by decide, by decide, ?_, by decide, by decide⟩
  rfl

theorem lookupA_eraseA_self {α : Type} (l : List (String × α)) (k : String) :
    lookupA (eraseA l k) k = none := by
  induction l with
  | nil => rfl
  | cons p rest ih =>
    obtain ⟨k0, v⟩ := p
    by_cases h : k0 = k <;> simp [eraseA, h, lookupA, ih]

theorem lookupA_eraseA_ne {α : Type} (l : List (String × α)) (k k' : String)
    (h : k' ≠ k) : lookupA (eraseA l k) k' = lookupA l k' := by
  induction l with
  | nil => rfl
  | cons p rest ih =>
    obtain ⟨k0, v⟩ := p
    by_cases h0 : k0 = k
    · subst h0
      have hk : k0 ≠ k' := fun hh => h hh.symm
      simp [eraseA, lookupA, hk, ih]
    · simp [eraseA, h0, lookupA, ih]

theorem lookupA_append {α : Type} (l1 l2 : List (String × α)) (k : String) :
    lookupA (l1 ++ l2) k =
      (match lookupA l1 k with
       | some v => some v
       | none => lookupA l2 k) := by
  induction l1 with
  | nil => simp [lookupA]
  | cons p rest ih =>
    obtain ⟨k0, v0⟩ := p
    by_cases h : k0 = k <;> simp [lookupA, h, ih]

theorem lookupA_insertA_self {α : Type} (l : List (String × α)) (k : String) (v : α) :
    lookupA (insertA l k v) k = some v := by
  simp [insertA, lookupA_append, lookupA_eraseA_self, lookupA]

theorem lookupA_insertA_ne {α : Type} (l : List (String × α)) (k k' : String) (v : α)
    (h : k' ≠ k) : lookupA (insertA l k v) k' = lookupA l k' := by
  rw [insertA, lookupA_append, lookupA_eraseA_ne _ _ _ h]
  cases hh : lookupA l k' <;> simp [lookupA, Ne.symm h]

theorem abortRemove_active_self (key : String) (s : OrchState) :
    lookupA (abortRemove key s).active_macros key = none := by
  unfold abortRemove
  cases h : lookupA s.active_macros key with
  | none => simpa using h
  | some am => simp [lookupA_eraseA_self]

theorem abortRemove_active_ne (key k : String) (s : OrchState) (h : k ≠ key) :
    lookupA (abortRemove key s).active_macros k = lookupA s.active_macros k := by
  unfold abortRemove
  cases hh : lookupA s.active_macros key <;> simp [lookupA_eraseA_ne _ _ _ h]

theorem abortRemove_registered (key : String) (s : OrchState) :
    (abortRemove key s).registered_macros = s.registered_macros := by
  unfold abortRemove
  cases lookupA s.active_macros key <;> simp

theorem abortRemove_before (key : String) (s : OrchState) :
    (abortRemove key s).before_action_states = s.before_action_states := by
  unfold abortRemove
  cases lookupA s.active_macros key <;> simp

/-- Claim C3 (amended): when `cancel_macro(id)` returns, the macro with
that id has been removed from the registry, any pending after-actions timer
stored under the key `id` has been aborted and its entry removed, and the
before-action state stored under `id` has been removed; the command
performs no input synthesis, so it does not release held keys or buttons. -/
theorem cancel_macro_effects (id : String) (s : OrchState) :
    ((cancelMacro id s).1).registered_macros
        = s.registered_macros.filter (fun m => m.id != id) ∧
    lookupA ((cancelMacro id s).1).active_macros id = none ∧
    (∀ am, lookupA s.active_macros id = some am →
        am.taskId ∈ ((cancelMacro id s).1).aborted) ∧
    lookupA ((cancelMacro id s).1).before_action_states id = none ∧
    (cancelMacro id s).2 = [] := by
  refine ⟨?_, ?_, ?_, ?_, rfl⟩
  · simp [cancelMacro, abortRemove_registered]
  · simp only [cancelMacro]
    exact abortRemove_active_self id _
  · intro am ham
    simp only [cancelMacro, abortRemove]
    simp only [ham]
    simp
  · simp [cancelMacro, lookupA_eraseA_self]

/-- Claim C3 counterexample: the executor holds the left mouse button down
(MouseClick with hold=true emits only a press), then `cancel_macro "h1"`
returns; the command emits no input events at all (the source has no
input-state tracker and no bulk-release), so the held button is still
depressed after the command returns, refuting "every key and mouse button
the orchestrator currently holds down has been released (bulk-release)
before the command returns". -/
theorem cancel_release_claim_false :
    execute_action_impl .MouseClick holdLeftParams = .ok [.mouseDown .Left] ∧
    (cancelMacro "h1" cancelStateEx).2 = [] ∧
    buttonHeldAfter .Left
        ([InputEvent.mouseDown .Left] ++ (cancelMacro "h1" cancelStateEx).2) = true := by
  exact ⟨rfl, rfl, rfl⟩

/-- Claim C10: `register_macro(config)` aborts and removes only an
after-actions timer entry stored under the key `config.id` (entries under
every other key are untouched, and the abort log grows only by the id-keyed
entry's task); the orchestrator stores a grouped macro's timer under its
groupId key; hence re-registering a macro whose groupId differs from its id
leaves the group's pending timer entry present and unchanged. -/
theorem register_leaves_group_timer (config : MacroConfig) (s : OrchState)
    (g : String) (am : ActiveMacro)
    (hg : config.groupId = some g)
    (hne : config.id ≠ g)
    (hlook : lookupA s.active_macros g = some am) :
    activeMacroKey config = g ∧
    (∀ k, k ≠ config.id →
      lookupA (registerMacro config s).active_macros k = lookupA s.active_macros k) ∧
    lookupA (registerMacro config s).active_macros g = some am ∧
    (lookupA s.active_macros config.id = none →
      (registerMacro config s).aborted = s.aborted) ∧
    (∀ am2, lookupA s.active_macros config.id = some am2 →
      (registerMacro config s).aborted = s.aborted ++ [am2.taskId]) := by
  have hframe : ∀ k, k ≠ config.id →
      lookupA (registerMacro config s).active_macros k = lookupA s.active_macros k := by
    intro k hk
    simp only [registerMacro]
    exact abortRemove_active_ne _ _ _ hk
  refine ⟨by simp [activeMacroKey, hg], hframe, ?_, ?_, ?_⟩
  · rw [hframe g (fun hh => hne hh.symm)]
    exact hlook
  · intro hid
    simp [registerMacro, abortRemove, hid]
  · intro am2 hid
    simp [registerMacro, abortRemove, hid]

theorem register_leaves_group_timer_witness :
    activeMacroKey cfgGroupedReg = "g" ∧
    (∀ k, k ≠ cfgGroupedReg.id →
      lookupA (registerMacro cfgGroupedReg armedStateEx).active_macros k =
        lookupA armedStateEx.active_macros k) ∧
    lookupA (registerMacro cfgGroupedReg armedStateEx).active_macros "g" =
      some { taskId := 0, last_triggered := 0 } ∧
    (lookupA armedStateEx.active_macros cfgGroupedReg.id = none →
      (registerMacro cfgGroupedReg armedStateEx).aborted = armedStateEx.aborted) ∧
    (∀ am2, lookupA armedStateEx.active_macros cfgGroupedReg.id = some am2 →
      (registerMacro cfgGroupedReg armedStateEx).aborted =
        armedStateEx.aborted ++ [am2.taskId]) :=
  register_leaves_group_timer cfgGroupedReg armedStateEx "g"
    { taskId := 0, last_triggered := 0 } (by rfl) (by decide) (by rfl)

/-- Claim C7: dispatching an action of kind Delay to the Action Executor
returns the descriptive validation error for every parameter record and
synthesizes no input; the phase loops consume Delay themselves, suspending
(advancing the clock by the duration) instead of dispatching. -/
theorem delay_never_dispatched (params : ActionParams) (a : MacroAction)
    (rest : List MacroAction) (t : Nat) (ha : a.action_type = .Delay) :
    execute_action_impl .Delay params =
      .error "Delay action type should be handled by the calling async loop" ∧
    runActions (a :: rest) t =
      runActions rest
        (match a.action_params.duration with
         | some d => t + d
         | none => t) := by
  refine ⟨rfl, ?_⟩
  obtain ⟨ty, ps⟩ := a
  simp only at ha
  subst ha
  rfl

theorem delay_never_dispatched_witness :
    execute_action_impl .Delay ActionParams.default =
      .error "Delay action type should be handled by the calling async loop" ∧
    runActions (delayAction 250 :: []) 0 =
      runActions []
        (match (delayAction 250).action_params.duration with
         | some d => 0 + d
         | none => 0) :=
  delay_never_dispatched ActionParams.default (delayAction 250) [] 0 (by rfl)

theorem idsNodup_filter (l : List MacroConfig) (p : MacroConfig → Bool)
    (h : idsNodup l) : idsNodup (l.filter p) := by
  have hs : List.Sublist ((l.filter p).map (fun m => m.id)) (l.map (fun m => m.id)) :=
    List.Sublist.map _ (List.filter_sublist l)
  exact List.Nodup.sublist hs h

theorem idsNodup_append_single (l : List MacroConfig) (config : MacroConfig)
    (h : idsNodup l) (hnot : ∀ m ∈ l, m.id ≠ config.id) :
    idsNodup (l ++ [config]) := by
  simp only [idsNodup, List.map_append, List.map_cons, List.map_nil] at *
  rw [List.nodup_append]
  refine ⟨h, List.nodup_singleton _, ?_⟩
  intro a ha hb
  simp only [List.mem_singleton] at hb
  obtain ⟨m, hm, rfl⟩ := List.mem_map.mp ha
  exact hnot m hm hb

theorem idsNodup_registerMacro (config : MacroConfig) (s : OrchState)
    (h : idsNodup s.registered_macros) :
    idsNodup (registerMacro config s).registered_macros := by
  simp only [registerMacro, abortRemove_registered]
  split
  · rename_i hany
    refine idsNodup_append_single _ _ (idsNodup_filter _ _ h) ?_
    intro m hm
    have := List.of_mem_filter hm
    simpa using this
  · rename_i hany
    refine idsNodup_append_single _ _ h ?_
    intro m hm heq
    exact hany (List.any_eq_true.mpr ⟨m, hm, by simp [heq]⟩)

theorem idsNodup_cancelMacro (id : String) (s : OrchState)
    (h : idsNodup s.registered_macros) :
    idsNodup ((cancelMacro id s).1).registered_macros := by
  simp only [cancelMacro, abortRemove_registered]
  exact idsNodup_filter _ _ h

theorem idsNodup_applyCmds (cmds : List Cmd) :
    ∀ s : OrchState, idsNodup s.registered_macros →
      idsNodup (applyCmds cmds s).registered_macros := by
  induction cmds with
  | nil => intro s h; exact h
  | cons c rest ih =>
    intro s h
    cases c with
    | reg config => exact ih _ (idsNodup_registerMacro config s h)
    | cancel id => exact ih _ (idsNodup_cancelMacro id s h)

/-- Claim C6: after any sequence of register_macro and cancel_macro calls
from process startup, no two entries of the macro registry share an id —
register_macro removes any existing entry with the incoming id before
appending the new one — so get_macros never returns two macros with equal
ids. -/
theorem registry_ids_unique (cmds : List Cmd) :
    ((getMacros (applyCmds cmds initialState)).map (fun m => m.id)).Nodup :=
  idsNodup_applyCmds cmds initialState (by simp [idsNodup, initialState])

theorem eventsElapsed_append (l1 l2 : List InputEvent) :
    eventsElapsed (l1 ++ l2) = eventsElapsed l1 + eventsElapsed l2 := by
  induction l1 with
  | nil => simp [eventsElapsed]
  | cons e rest ih =>
    cases e <;> simp [eventsElapsed, ih]
    omega

theorem runPreemptedAfters_time (l : List (String × MacroConfig)) (s : OrchState) (t : Nat) :
    (runPreemptedAfters l s t).2.2 = t + eventsElapsed (runPreemptedAfters l s t).2.1 := by
  induction l generalizing s t with
  | nil => simp [runPreemptedAfters, eventsElapsed]
  | cons p rest ih =>
    obtain ⟨k, mc⟩ := p
    simp only [runPreemptedAfters]
    rw [ih, eventsElapsed_append]
    omega

theorem runPreemptedAfters_active (l : List (String × MacroConfig)) (s : OrchState) (t : Nat) :
    (runPreemptedAfters l s t).1.active_macros = s.active_macros := by
  induction l generalizing s t with
  | nil => rfl
  | cons p rest ih =>
    obtain ⟨k, mc⟩ := p
    simp only [runPreemptedAfters]
    rw [ih]

theorem runPreemptedAfters_before_ne (l : List (String × MacroConfig)) (s : OrchState)
    (t : Nat) (key : String) (hk : ∀ p ∈ l, p.1 ≠ key) :
    lookupA (runPreemptedAfters l s t).1.before_action_states key =
      lookupA s.before_action_states key := by
  induction l generalizing s t with
  | nil => rfl
  | cons p rest ih =>
    obtain ⟨k, mc⟩ := p
    have hkk : k ≠ key := hk (k, mc) (by simp)
    simp only [runPreemptedAfters]
    rw [ih _ _ (fun q hq => hk q (by simp [hq]))]
    simp [lookupA_eraseA_ne _ _ _ (Ne.symm hkk)]

theorem preemptScan_exec_ne (key : String) (reg : List MacroConfig) :
    ∀ act, ∀ p ∈ (preemptScan key reg act).1, p.1 ≠ key := by
  intro act
  induction act with
  | nil =>
    intro p hp
    simp [preemptScan] at hp
  | cons q rest ih =>
    obtain ⟨k, am⟩ := q
    intro p hp
    simp only [preemptScan] at hp
    by_cases hkq : k = key
    · rw [if_pos hkq] at hp
      exact ih p hp
    · rw [if_neg hkq] at hp
      cases hfind : reg.find? (fun m => m.id == k || m.groupId == some k) with
      | none =>
        simp only [hfind] at hp
        exact ih p hp
      | some mc =>
        simp only [hfind] at hp
        cases haft : mc.after_actions with
        | none =>
          simp only [haft] at hp
          exact ih p hp
        | some al =>
          simp only [haft] at hp
          by_cases hl : (!al.isEmpty) = true
          · rw [if_pos hl] at hp
            rcases List.mem_cons.mp hp with hpe | hpr
            · rw [hpe]
              exact hkq
            · exact ih p hpr
          · rw [if_neg hl] at hp
            exact ih p hp

theorem foldl_abortRemove_before (ks : List String) (s : OrchState) :
    (ks.foldl (fun st k => abortRemove k st) s).before_action_states =
      s.before_action_states := by
  induction ks generalizing s with
  | nil => rfl
  | cons k rest ih => simp [List.foldl, ih, abortRemove_before]

theorem foldl_abortRemove_registered (ks : List String) (s : OrchState) :
    (ks.foldl (fun st k => abortRemove k st) s).registered_macros =
      s.registered_macros := by
  induction ks generalizing s with
  | nil => rfl
  | cons k rest ih => simp [List.foldl, ih, abortRemove_registered]

theorem preemptPhase_time (key : String) (now : Nat) (s : OrchState) :
    (preemptPhase key now s).2.2 = now + eventsElapsed (preemptPhase key now s).2.1 := by
  simp only [preemptPhase]
  exact runPreemptedAfters_time _ _ _

theorem preemptPhase_before (key : String) (now : Nat) (s : OrchState) :
    lookupA (preemptPhase key now s).1.before_action_states key =
      lookupA s.before_action_states key := by
  simp only [preemptPhase]
  rw [runPreemptedAfters_before_ne _ _ _ _
    (preemptScan_exec_ne key s.registered_macros s.active_macros)]
  rw [foldl_abortRemove_before]

theorem protectLingering_active (key : String) (t1 : Nat) (s : OrchState) :
    (protectLingering key t1 s).active_macros = s.active_macros := by
  unfold protectLingering
  split <;> rfl

theorem beforePhase_active (mc : MacroConfig) (key : String) (t1 : Nat) (s : OrchState) :
    (beforePhase mc key t1 s).1.active_macros = s.active_macros := by
  unfold beforePhase
  split <;> rfl

theorem armPhase_before (mc : MacroConfig) (key : String) (t3 : Nat) (s : OrchState) :
    (armPhase mc key t3 s).before_action_states = s.before_action_states := by
  cases haft : mc.after_actions with
  | none => simp [armPhase, haft]
  | some l =>
    by_cases hc : (!l.isEmpty && mc.timeout.isSome) = true
    · by_cases hlk : (lookupA s.active_macros key).isSome = true
      · simp [armPhase, haft, hc, hlk]
      · simp [armPhase, haft, hc, hlk]
    · simp [armPhase, haft, hc]

theorem armPhase_lookup (mc : MacroConfig) (key : String) (t3 : Nat) (s : OrchState)
    (h : lookupA s.active_macros key = none) :
    lookupA (armPhase mc key t3 s).active_macros key =
      (if armingCondition mc then
        some { taskId := s.nextTaskId, last_triggered := t3 }
       else none) := by
  cases haft : mc.after_actions with
  | none => simp [armPhase, armingCondition, haft, h]
  | some l =>
    by_cases hc : (!l.isEmpty && mc.timeout.isSome) = true
    · simp [armPhase, armingCondition, haft, hc, h, lookupA_insertA_self]
    · simp only [armPhase, armingCondition, haft, if_neg hc]
      exact h

theorem trigger_arming (mc : MacroConfig) (now : Nat) (s : OrchState) :
    (lookupA (triggerTask mc now s).state.active_macros (activeMacroKey mc)).isSome
      = armingCondition mc := by
  simp only [triggerTask]
  rw [armPhase_lookup]
  · cases armingCondition mc <;> simp
  · rw [beforePhase_active, protectLingering_active]
    exact abortRemove_active_self _ _

/-- Claim C4 (amended): there is no inter-group debounce: the orchestrator
reads no `macro_trigger_delay_ms` setting (none exists in the source) and
never suspends before the before/main phases beyond the inline execution of
the preempted groups' after-actions — a trigger at instant `now` begins its
before/main phases at `now` plus only the elapsed time of the preemption
trace (with nothing to preempt, at `now` itself, regardless of any
configured delay). -/
theorem no_intergroup_debounce (mc : MacroConfig) (now : Nat) (s : OrchState) :
    (triggerTask mc now s).beforeStart =
      now + eventsElapsed (triggerTask mc now s).preemptEvents := by
  simp only [triggerTask]
  exact preemptPhase_time _ _ _

/-- Claim C4 counterexample: the claim's own scenario — group g triggered
at t = 0, group g2 at t = 50, claimed `macro_trigger_delay_ms` 200 —
executed against the code: g2's before/main phases begin at t = 50, not at
t ≥ 200; no delay setting exists to be read. -/
theorem intergroup_debounce_claim_false :
    (triggerTask cfgG2 50 (triggerTask cfgG 0 twoGroupState).state).beforeStart = 50 ∧
    50 < 200 := by
  constructor
  · rfl
  · decide

theorem afterTimerFire_events (task_key : String) (l : List MacroAction)
    (tmo arm : Nat) (s2 : OrchState) :
    (afterTimerFire task_key l tmo arm s2).events = runForcedActions l := by
  unfold afterTimerFire
  split <;> rfl

theorem afterTimerFire_clears (task_key : String) (l : List MacroAction)
    (tmo arm : Nat) (s2 : OrchState)
    (hpresent : (lookupA s2.active_macros task_key).isSome = true) :
    lookupA (afterTimerFire task_key l tmo arm s2).state.active_macros task_key = none ∧
    lookupA (afterTimerFire task_key l tmo arm s2).state.before_action_states task_key
      = none := by
  unfold afterTimerFire
  rw [if_pos hpresent]
  exact ⟨lookupA_eraseA_self _ _, lookupA_eraseA_self _ _⟩

/-- Claim C5 (amended): after the main phase a cancellable timer task is
spawned and its handle stored as the group's active entry iff the macro's
after-actions are set and non-empty AND its timeout is set (the source's
condition also requires non-empty after-actions, not only the timeout);
when the armed timer fires it dispatches the after-actions in order and
then — the group's active entry being still present — clears the active
entry and the before-action state stored under the group key. -/
theorem after_timer_spec (mc : MacroConfig) (now : Nat) (s : OrchState)
    (task_key : String) (l : List MacroAction) (tmo arm : Nat) (s2 : OrchState)
    (hpresent : (lookupA s2.active_macros task_key).isSome = true) :
    ((lookupA (triggerTask mc now s).state.active_macros (activeMacroKey mc)).isSome
        = armingCondition mc) ∧
    (afterTimerFire task_key l tmo arm s2).events = runForcedActions l ∧
    lookupA (afterTimerFire task_key l tmo arm s2).state.active_macros task_key = none ∧
    lookupA (afterTimerFire task_key l tmo arm s2).state.before_action_states task_key
      = none := by
  refine ⟨trigger_arming mc now s, afterTimerFire_events _ _ _ _ _, ?_, ?_⟩
  · exact (afterTimerFire_clears _ _ _ _ _ hpresent).1
  · exact (afterTimerFire_clears _ _ _ _ _ hpresent).2

theorem after_timer_spec_witness :
    ((lookupA (triggerTask cfgG 0 twoGroupState).state.active_macros
        (activeMacroKey cfgG)).isSome = armingCondition cfgG) ∧
    (afterTimerFire "g" [keyAction "a"] 500 0 armedStateEx).events =
      runForcedActions [keyAction "a"] ∧
    lookupA (afterTimerFire "g" [keyAction "a"] 500 0 armedStateEx).state.active_macros
      "g" = none ∧
    lookupA (afterTimerFire "g" [keyAction "a"] 500 0
        armedStateEx).state.before_action_states "g" = none :=
  after_timer_spec cfgG 0 twoGroupState "g" [keyAction "a"] 500 0 armedStateEx (by rfl)

/-- Claim C5 counterexample: a macro with `timeout_ms` set (500 ms) but no
after-actions at all: the claim says arming is conditioned only on
`timeout_ms` being set, so a timer handle would be stored as the group's
active entry after the trigger; the code stores none (lib.rs line 775 also
requires non-empty after-actions). -/
theorem after_timer_claim_false :
    cfgTimeoutNoAfter.timeout = some 500 ∧
    lookupA (triggerTask cfgTimeoutNoAfter 0 initialState).state.active_macros
        (activeMacroKey cfgTimeoutNoAfter) = none := by
  exact ⟨rfl, rfl⟩

theorem protectLingering_lookup_some (key : String) (t1 : Nat) (s : OrchState)
    (st : BeforeActionState) (h : lookupA s.before_action_states key = some st) :
    lookupA (protectLingering key t1 s).before_action_states key =
      some { last_executed := t1, cooldown := BEFORE_ACTION_COOLDOWN_MS * 2 } := by
  unfold protectLingering
  rw [if_pos (by simp [h])]
  simp [lookupA_insertA_self]

theorem beforePhase_suppressed (mc : MacroConfig) (key : String) (t1 : Nat) (s : OrchState)
    (h : lookupA s.before_action_states key =
      some { last_executed := t1, cooldown := BEFORE_ACTION_COOLDOWN_MS * 2 }) :
    beforePhase mc key t1 s = (s, [], t1) := by
  unfold beforePhase shouldExecuteBefore
  rw [h]
  simp [BEFORE_ACTION_COOLDOWN_MS]

/-- Claim C9: at trigger entry, if a before-action state for the trigger's
group key is already present, the orchestrator does not remove it but
re-inserts it with `last_executed` set to the current instant (the model
clock at which the before/main phases begin) and a cooldown extended to
twice the 5000-ms base cooldown, and the trigger's before-actions are
consequently suppressed (the before phase runs nothing). -/
theorem lingering_before_state_protected (mc : MacroConfig) (now : Nat) (s : OrchState)
    (st : BeforeActionState)
    (h : lookupA s.before_action_states (activeMacroKey mc) = some st) :
    lookupA (triggerTask mc now s).state.before_action_states (activeMacroKey mc) =
      some { last_executed := (triggerTask mc now s).beforeStart,
             cooldown := BEFORE_ACTION_COOLDOWN_MS * 2 } ∧
    (triggerTask mc now s).beforeEvents = [] := by
  have h1 : lookupA (preemptPhase (activeMacroKey mc) now s).1.before_action_states
      (activeMacroKey mc) = some st := by
    rw [preemptPhase_before]
    exact h
  have h2 : lookupA (abortRemove (activeMacroKey mc)
      (preemptPhase (activeMacroKey mc) now s).1).before_action_states
      (activeMacroKey mc) = some st := by
    rw [abortRemove_before]
    exact h1
  have h3 := protectLingering_lookup_some (activeMacroKey mc)
    (preemptPhase (activeMacroKey mc) now s).2.2 _ _ h2
  have h4 := beforePhase_suppressed mc (activeMacroKey mc)
    (preemptPhase (activeMacroKey mc) now s).2.2 _ h3
  simp only [triggerTask, h4]
  rw [armPhase_before]
  exact ⟨h3, trivial⟩

theorem lingering_before_state_protected_witness :
    lookupA (triggerTask cfgG2 42 lingerStateEx).state.before_action_states
        (activeMacroKey cfgG2) =
      some { last_executed := (triggerTask cfgG2 42 lingerStateEx).beforeStart,
             cooldown := BEFORE_ACTION_COOLDOWN_MS * 2 } ∧
    (triggerTask cfgG2 42 lingerStateEx).beforeEvents = [] :=
  lingering_before_state_protected cfgG2 42 lingerStateEx
    { last_executed := 0, cooldown := 5000 } (by rfl)
